import Mathlib

/-!
Shallow embedding of the processing pipeline and query-filter core of the
cacophony-api server (src/models/Recording.js and the /api/fileProcessing
route in src/unnamed/part_000), with theorems checking the specification
claims about it.
-/

namespace Cacophony

/-- Recording-level tag row (the "Tags" table): the fields read by the
query builder are what, detail and automatic. -/
structure Tag where
  what : Option String
  detail : Option String
  automatic : Bool
deriving DecidableEq, Repr

/-- Track-level tag row (the "TrackTags" table, aliased "Tags" inside
trackTaggedWith): it has a what field and an automatic flag; the query
builder never reads a detail column from it. -/
structure TrackTag where
  what : Option String
  automatic : Bool
deriving DecidableEq, Repr

/-- A track of a recording: an archival timestamp (null means active) and
its track tags. -/
structure Track where
  archivedAt : Option Nat
  tags : List TrackTag
deriving DecidableEq, Repr

/-- A JSON-ish value stored under a key of additionalMetadata.  The only
structured value the modelled code writes is the old-tags snapshot taken
by reprocess. -/
inductive MetaVal where
  | str (s : String)
  | tagList (ts : List Tag)
deriving DecidableEq, Repr

/-- The Recording row: the attributes of src/models/Recording.js that the
processing pipeline reads or writes.  Dates are abstracted to naturals. -/
structure Recording where
  id : Nat
  type : String
  recordingDateTime : Option Nat
  processingState : Option String
  processingStartTime : Option Nat
  jobKey : Option String
  fileKey : Option String
  additionalMetadata : Option (List (String × MetaVal))
  comment : Option String
deriving DecidableEq, Repr

/-- Recording.processingStates (src/models/Recording.js lines 840-843):
the map from recording type to its ordered stage list.  A JS object lookup
of an unknown key yields undefined, modelled as none. -/
def processingStates : String → Option (List String)
  | "thermalRaw" => some ["getMetadata", "toMp4", "FINISHED"]
  | "audio" => some ["toMp3", "FINISHED"]
  | _ => none

/-- Index of the first occurrence of x in l, none when absent. -/
def firstIdx? : List String → String → Option Nat
  | [], _ => none
  | y :: ys, x => if y = x then some 0 else (firstIdx? ys x).map (· + 1)

/-- JS Array.prototype.indexOf: first index of x, or -1 when absent. -/
def jsIndexOf (l : List String) (x : String) : Int :=
  match firstIdx? l x with
  | none => -1
  | some i => i

/-- JS indexOf applied to a possibly-null needle: indexOf(null) = -1
because null is never an element of the stage lists. -/
def jsIndexOfOpt (l : List String) (x : Option String) : Int :=
  match x with
  | none => -1
  | some s => jsIndexOf l s

/-- JS array subscript l[i] with an Int index: out of range (including
negative) yields undefined, modelled as none. -/
def jsElem? (l : List String) (i : Int) : Option String :=
  if i < 0 then none else l[i.toNat]?

/-- The nextJob computation of the success branch of the PUT
/api/fileProcessing handler (src/unnamed/part_000 lines 90-91):
jobs[jobs.indexOf(recording.processingState) + 1]. -/
def nextJobComputed (jobs : List String) (cur : Option String) : Option String :=
  jsElem? jobs (jsIndexOfOpt jobs cur + 1)

/-- JS object key update used by the metadata merge: overwrite the value of
an existing key in place, append a new key at the end. -/
def setKey (m : List (String × MetaVal)) (k : String) (v : MetaVal) :
    List (String × MetaVal) :=
  if m.any (fun p => p.1 = k) then m.map (fun p => if p.1 = k then (k, v) else p)
  else m ++ [(k, v)]

/-- Recording.prototype.mergeAdditionalMetadata (src/models/Recording.js
379-385): key-wise overwrite of the new values into the existing metadata
object (an absent metadata object is treated as empty). -/
def mergeAdditionalMetadata (r : Recording) (newValues : List (String × MetaVal)) :
    Recording :=
  let meta := newValues.foldl (fun m p => setKey m p.1 p.2) (r.additionalMetadata.getD [])
  { r with additionalMetadata := some meta }

/-- One field assignment supplied through result.fieldUpdates, restricted
to the Recording attributes this embedding models. -/
inductive FieldSet where
  | setAdditionalMetadata (m : List (String × MetaVal))
  | setComment (v : Option String)
  | setJobKey (v : Option String)
  | setProcessingState (v : Option String)
  | setProcessingStartTime (v : Option Nat)
  | setFileKey (v : Option String)
deriving DecidableEq, Repr

/-- Recording.prototype.mergeUpdate (src/models/Recording.js 367-376): for
each supplied field, additionalMetadata is merged key-wise and every other
field is set directly. -/
def mergeUpdate (r : Recording) (newValues : List FieldSet) : Recording :=
  newValues.foldl
    (fun acc fs =>
      match fs with
      | FieldSet.setAdditionalMetadata m => mergeAdditionalMetadata acc m
      | FieldSet.setComment v => { acc with comment := v }
      | FieldSet.setJobKey v => { acc with jobKey := v }
      | FieldSet.setProcessingState v => { acc with processingState := v }
      | FieldSet.setProcessingStartTime v => { acc with processingStartTime := v }
      | FieldSet.setFileKey v => { acc with fileKey := v }) r

/-- Outcome of the PUT /api/fileProcessing handler. -/
inductive ReportResult where
  | badRequest (msg : String)
  | ok (msg : String)
  | serverError
deriving DecidableEq, Repr

/-- The PUT /api/fileProcessing handler (src/unnamed/part_000 lines
80-114), after request validation, acting on the recording row loaded by
id.  Returns the HTTP outcome together with the recording row as saved
(the loaded row unchanged when the report is rejected).  The serverError
case models the TypeError thrown when processingStates has no entry for
the recording type (the row is not saved there either). -/
def reportHandler (r : Recording) (jobKey : String) (success complete : Bool)
    (fieldUpdates : Option (List FieldSet)) (newFileKey : Option String) :
    ReportResult × Recording :=
  if r.jobKey = some jobKey then
    if success then
      match processingStates r.type with
      | none => (ReportResult.serverError, r)
      | some jobs =>
        let nextJob := nextJobComputed jobs r.processingState
        let r1 := { r with processingState := nextJob, fileKey := newFileKey }
        let r2 := if complete then { r1 with jobKey := none, processingStartTime := none }
                  else r1
        let r3 := match fieldUpdates with
          | none => r2
          | some fu => mergeUpdate r2 fu
        (ReportResult.ok "Processing finished.", r3)
    else
      (ReportResult.ok "Processing failed.",
        { r with processingStartTime := none, jobKey := none })
  else
    (ReportResult.badRequest "jobKey given did not match the database..", r)

/-- The where-clause of Recording.getOneForProcessing: same type, same
processing state, not currently claimed (processingStartTime null). -/
def claimMatches (ty st : String) (r : Recording) : Bool :=
  r.type == ty && r.processingState == some st && r.processingStartTime == none

/-- The ORDER BY "recordingDateTime" DESC comparison, as the relation
"a sorts no later than b" (PostgreSQL places NULLs first under DESC). -/
def dateDescGE : Option Nat → Option Nat → Bool
  | none, _ => true
  | some _, none => false
  | some a, some b => decide (b ≤ a)

/-- findOne with ORDER BY recordingDateTime DESC LIMIT 1 over an in-memory
store: the first row, in store order, among those maximal for the DESC
order. -/
def pickLatest : List Recording → Option Recording
  | [] => none
  | r :: rs =>
    match pickLatest rs with
    | none => some r
    | some b => if dateDescGE r.recordingDateTime b.recordingDateTime then some r else some b

/-- Recording.getOneForProcessing (src/models/Recording.js 117-154):
inside one transaction, select one unclaimed recording of the given type
and state, most recent first with a skip-locked row lock, stamp jobKey
with a fresh uuid (passed in here as newKey, uuid generation being an
external source of fresh tokens) and processingStartTime = now, save, and
return the row.  Every failure of the transaction, including findOne
returning no row (recording.set then throws on null), is caught and
returns null, modelled as none. -/
def getOneForProcessing (store : List Recording) (ty st : String)
    (newKey : String) (now : Nat) : Option Recording :=
  match pickLatest (store.filter (claimMatches ty st)) with
  | none => none
  | some r => some { r with jobKey := some newKey, processingStartTime := some now }

/-- Recording.prototype.reprocess (src/models/Recording.js 438-470),
restricted to the mutations of the recording row itself: snapshot the
existing recording tags into additionalMetadata.oldTags when any exist,
then reset processingStartTime to null and processingState to the first
stage of the type.  Tag deletion and track archival touch other tables
and change no field of the row.  The jobKey field is not touched by the
source.  An unknown type makes the JS throw on processingStates[type][0],
modelled as none. -/
def reprocess (r : Recording) (tags : List Tag) : Option Recording :=
  match processingStates r.type with
  | none => none
  | some jobs =>
    let meta := setKey (r.additionalMetadata.getD []) "oldTags" (MetaVal.tagList tags)
    let r1 :=
      if tags.length > 0 then { r with additionalMetadata := some meta }
      else r
    some { r1 with processingStartTime := none, processingState := jobs[0]? }

/-- The invariant of claim C7: the claim token and its start time are both
null or both non-null. -/
def claimPairInvariant (r : Recording) : Prop :=
  r.jobKey = none ↔ r.processingStartTime = none

/-- SQL three-valued truth value (t = TRUE, f = FALSE, u = NULL/unknown),
used to evaluate the raw boolean fragments the query builder interpolates
into the WHERE clause. -/
inductive TV where
  | t
  | f
  | u
deriving DecidableEq, Repr

/-- Kleene negation. -/
def tvNot : TV → TV
  | TV.t => TV.f
  | TV.f => TV.t
  | TV.u => TV.u

/-- Kleene conjunction. -/
def tvAnd : TV → TV → TV
  | TV.f, _ => TV.f
  | _, TV.f => TV.f
  | TV.t, TV.t => TV.t
  | _, _ => TV.u

/-- Kleene disjunction. -/
def tvOr : TV → TV → TV
  | TV.t, _ => TV.t
  | _, TV.t => TV.t
  | TV.f, TV.f => TV.f
  | _, _ => TV.u

/-- The nullable string columns the generated fragments reference on a tag
row (recording-level "Tags".what and "Tags".detail; for track tags the
alias "Tags" refers to "TrackTags", which the fragments only query through
the what column). -/
inductive Col where
  | whatCol
  | detailCol
deriving DecidableEq, Repr

/-- A tag row as seen by the generated SQL fragments. -/
structure Row where
  what : Option String
  detail : Option String
  automatic : Bool
deriving DecidableEq, Repr

/-- Column dereference. -/
def colVal : Col → Row → Option String
  | Col.whatCol, r => r.what
  | Col.detailCol, r => r.detail

/-- Abstract syntax of the boolean SQL fragments built by
Recording.queryBuilder (selectByTagWhat and the humanSQL / AISQL type
filters). -/
inductive SqlExpr where
  | isNull (c : Col)
  | eqLit (c : Col) (s : String)
  | neLit (c : Col) (s : String)
  | autoCol
  | notE (e : SqlExpr)
  | andE (a b : SqlExpr)
  | orE (a b : SqlExpr)
deriving DecidableEq, Repr

/-- SQL evaluation of a fragment on one tag row, with NULL propagation:
comparisons against a NULL column yield unknown, IS NULL is definite, and
the boolean column automatic is never null. -/
def eval : SqlExpr → Row → TV
  | SqlExpr.isNull c, r => match colVal c r with
    | none => TV.t
    | some _ => TV.f
  | SqlExpr.eqLit c s, r => match colVal c r with
    | none => TV.u
    | some v => if v = s then TV.t else TV.f
  | SqlExpr.neLit c s, r => match colVal c r with
    | none => TV.u
    | some v => if v = s then TV.f else TV.t
  | SqlExpr.autoCol, r => if r.automatic then TV.t else TV.f
  | SqlExpr.notE e, r => tvNot (eval e r)
  | SqlExpr.andE a b, r => tvAnd (eval a r) (eval b r)
  | SqlExpr.orE a b, r => tvOr (eval a r) (eval b r)

/-- A WHERE condition keeps a row only when it evaluates to TRUE. -/
def evalT (e : SqlExpr) (r : Row) : Bool :=
  match eval e r with
  | TV.t => true
  | _ => false

/-- A conjunction of WHERE conditions holds when each evaluates to TRUE. -/
def condsTrue (conds : List SqlExpr) (r : Row) : Bool :=
  conds.all (fun e => evalT e r)

/-- The fragment humanSQL of handleTagMode: NOT "Tags".automatic. -/
def humanSQL : SqlExpr := SqlExpr.notE SqlExpr.autoCol

/-- The fragment AISQL of handleTagMode: "Tags".automatic. -/
def aiSQL : SqlExpr := SqlExpr.autoCol

/-- The per-name parts pushed by Recording.queryBuilder.selectByTagWhat
(src/models/Recording.js 689-725) for one requested tag name.  At
recording level (usesDetail) the synthetic name interesting becomes
(what IS NULL OR what != bird) AND (detail IS NULL OR detail != false
positive); at track level it becomes what != bird AND what != false
positive; any other name becomes what = name, with a second part
detail = name at recording level only. -/
def nameParts (usesDetail : Bool) (n : String) : List SqlExpr :=
  if n = "interesting" then
    if usesDetail then
      [SqlExpr.andE
        (SqlExpr.orE (SqlExpr.isNull Col.whatCol) (SqlExpr.neLit Col.whatCol "bird"))
        (SqlExpr.orE (SqlExpr.isNull Col.detailCol)
          (SqlExpr.neLit Col.detailCol "false positive"))]
    else
      [SqlExpr.andE (SqlExpr.neLit Col.whatCol "bird")
        (SqlExpr.neLit Col.whatCol "false positive")]
  else
    if usesDetail then [SqlExpr.eqLit Col.whatCol n, SqlExpr.eqLit Col.detailCol n]
    else [SqlExpr.eqLit Col.whatCol n]

/-- parts.join(" OR "): fold the parts into one disjunction (none when the
parts list is empty, mirroring the null return of selectByTagWhat). -/
def orJoin : List SqlExpr → Option SqlExpr
  | [] => none
  | e :: es => some (es.foldl SqlExpr.orE e)

/-- Recording.queryBuilder.selectByTagWhat: the name-filter condition for
a list of requested tag names, OR-ed across names (null for an empty
list). -/
def selectByTagWhat (tags : List String) (usesDetail : Bool) : Option SqlExpr :=
  if tags.isEmpty then none
  else orJoin (tags.flatMap (nameParts usesDetail))

/-- View of a recording-level tag as a row for fragment evaluation. -/
def tagRow (t : Tag) : Row :=
  { what := t.what, detail := t.detail, automatic := t.automatic }

/-- View of a track tag as a row: the alias "Tags" inside trackTaggedWith
is the TrackTags table, whose detail column the fragments never touch. -/
def trackTagRow (t : TrackTag) : Row :=
  { what := t.what, detail := none, automatic := t.automatic }

/-- Recording.queryBuilder.recordingTaggedWith (src/models/Recording.js
658-671): EXISTS a recording-level tag of this recording satisfying the
optional name filter and the optional type filter. -/
def recordingTaggedWith (names : Option (List String)) (typeSql : Option SqlExpr)
    (recTags : List Tag) : Bool :=
  let conds := (names.bind (fun ns => selectByTagWhat ns true)).toList ++ typeSql.toList
  recTags.any (fun tg => condsTrue conds (tagRow tg))

/-- Recording.queryBuilder.trackTaggedWith (src/models/Recording.js
673-687): EXISTS a tag on a non-archived track of this recording
satisfying the optional name filter and the optional type filter. -/
def trackTaggedWith (names : Option (List String)) (typeSql : Option SqlExpr)
    (tracks : List Track) : Bool :=
  let conds := (names.bind (fun ns => selectByTagWhat ns false)).toList ++ typeSql.toList
  tracks.any (fun tr =>
    tr.archivedAt == none && tr.tags.any (fun tt => condsTrue conds (trackTagRow tt)))

/-- Recording.queryBuilder.tagOfType: recording-level tag exists OR
track-level tag exists. -/
def tagOfType (names : Option (List String)) (typeSql : Option SqlExpr) :
    List Tag → List Track → Bool :=
  fun recTags tracks =>
    recordingTaggedWith names typeSql recTags || trackTaggedWith names typeSql tracks

/-- Recording.queryBuilder.notTagOfType: no recording-level tag exists AND
no track-level tag exists. -/
def notTagOfType (names : Option (List String)) (typeSql : Option SqlExpr) :
    List Tag → List Track → Bool :=
  fun recTags tracks =>
    !recordingTaggedWith names typeSql recTags && !trackTaggedWith names typeSql tracks

/-- The predicate of the free-text named modes (cool, missed track,
multiple animals, trapped in trap): EXISTS a recording-level tag named by
the mode, AND-ed with tagOfType over the requested names when a name list
is also given. -/
def namedModePred (mode : String) (tagWhats : Option (List String)) :
    List Tag → List Track → Bool :=
  fun recTags tracks =>
    recordingTaggedWith (some [mode]) none recTags &&
      (match tagWhats with
        | none => true
        | some _ => tagOfType tagWhats none recTags tracks)

/-- Recording.queryBuilder.handleTagMode (src/models/Recording.js
572-636) as a predicate compiler: the resulting predicate takes the
recording-level tags and the tracks of a recording and decides whether
the recording passes the tag-mode filter; an unknown mode is the thrown
invalid-tag-mode error. -/
def handleTagMode (tagMode : Option String) (tagWhatsIn : List String) :
    Except String (List Tag → List Track → Bool) :=
  let tagWhats : Option (List String) :=
    if tagWhatsIn.isEmpty then none else some tagWhatsIn
  let mode := match tagMode with
    | some m => m
    | none => if tagWhats.isSome then "tagged" else "any"
  match mode with
  | "any" => Except.ok (fun _ _ => true)
  | "untagged" => Except.ok (notTagOfType tagWhats none)
  | "tagged" => Except.ok (tagOfType tagWhats none)
  | "human-tagged" => Except.ok (tagOfType tagWhats (some humanSQL))
  | "automatic-tagged" => Except.ok (tagOfType tagWhats (some aiSQL))
  | "both-tagged" => Except.ok (fun rt tks =>
      tagOfType tagWhats (some humanSQL) rt tks && tagOfType tagWhats (some aiSQL) rt tks)
  | "no-human" => Except.ok (notTagOfType tagWhats (some humanSQL))
  | "automatic-only" => Except.ok (fun rt tks =>
      tagOfType tagWhats (some aiSQL) rt tks && notTagOfType tagWhats (some humanSQL) rt tks)
  | "human-only" => Except.ok (fun rt tks =>
      tagOfType tagWhats (some humanSQL) rt tks && notTagOfType tagWhats (some aiSQL) rt tks)
  | "automatic+human" => Except.ok (fun rt tks =>
      tagOfType tagWhats (some humanSQL) rt tks && tagOfType tagWhats (some aiSQL) rt tks)
  | "cool" => Except.ok (namedModePred "cool" tagWhats)
  | "missed track" => Except.ok (namedModePred "missed track" tagWhats)
  | "multiple animals" => Except.ok (namedModePred "multiple animals" tagWhats)
  | "trapped in trap" => Except.ok (namedModePred "trapped in trap" tagWhats)
  | m => Except.error ("invalid tag mode: " ++ m)

/-- Filter options as given by the client: latLongPrec is none when the
supplied value is not a number.  Numbers are modelled as rationals. -/
structure FilterOptionsIn where
  latLongPrec : Option ℚ
deriving DecidableEq

/-- Filter options after makeFilterOptions: latLongPrec is always a
number. -/
structure FilterOptions where
  latLongPrec : ℚ
deriving DecidableEq

/-- Recording.makeFilterOptions (src/models/Recording.js 245-253): a
non-numeric latLongPrec defaults to 100, and a principal without global
write capability is clamped to a floor of 100 via Math.max. -/
def makeFilterOptions (hasGlobalWrite : Bool) (options : FilterOptionsIn) :
    FilterOptions :=
  let p := match options.latLongPrec with
    | none => (100 : ℚ)
    | some q => q
  if hasGlobalWrite then { latLongPrec := p } else { latLongPrec := max p 100 }

/-- Truncation toward zero, the rounding of the JS % operator. -/
def ratTrunc (q : ℚ) : Int :=
  if 0 ≤ q then ⌊q⌋ else ⌈q⌉

/-- The JS remainder operator: a % b = a - b * trunc(a / b), keeping the
sign of the dividend. -/
def jsMod (a b : ℚ) : ℚ :=
  a - b * (ratTrunc (a / b) : ℚ)

/-- reduceLatLonPrecision (src/models/Recording.js 407-420) on one
coordinate: snap to the grid of size prec * 360 / 40000000 degrees and
shift by half a cell away from zero. -/
def reduceCoordPrecision (prec v : ℚ) : ℚ :=
  let resolution := prec * 360 / 40000000
  let hr := resolution / 2
  let v1 := v - jsMod v resolution
  if 0 < v1 then v1 + hr else v1 - hr

/-- reduceLatLonPrecision on a coordinate pair. -/
def reduceLatLonPrecision (latLon : ℚ × ℚ) (prec : ℚ) : ℚ × ℚ :=
  (reduceCoordPrecision prec latLon.1, reduceCoordPrecision prec latLon.2)

/-- Recording.prototype.filterData (src/models/Recording.js 398-405)
applied to the location field: redact the coordinates at the effective
precision; a recording without a location is untouched. -/
def filterData (location : Option (ℚ × ℚ)) (options : FilterOptions) :
    Option (ℚ × ℚ) :=
  location.map (fun ll => reduceLatLonPrecision ll options.latLongPrec)

/-- A claimed audio recording mid-pipeline, used as the concrete scenario
row: claimed with token T while in stage toMp3. -/
def recClaimedAudio : Recording :=
  { id := 1, type := "audio", recordingDateTime := some 10,
    processingState := some "toMp3", processingStartTime := some 5,
    jobKey := some "T", fileKey := some "f1",
    additionalMetadata := none, comment := none }

/-- A finished, claimed audio recording (terminal stage). -/
def recFinishedAudio : Recording :=
  { id := 2, type := "audio", recordingDateTime := none,
    processingState := some "FINISHED", processingStartTime := some 9,
    jobKey := some "T", fileKey := some "f1",
    additionalMetadata := none, comment := none }

/-- An unclaimed audio recording awaiting the toMp3 stage. -/
def recUnclaimedAudio : Recording :=
  { id := 3, type := "audio", recordingDateTime := some 20,
    processingState := some "toMp3", processingStartTime := none,
    jobKey := none, fileKey := none,
    additionalMetadata := none, comment := none }

/-- C3: a report whose jobKey does not equal the stored token is rejected
with a 400 token-mismatch response and the recording row is returned
exactly as it was loaded: processingState, fileKey, jobKey,
processingStartTime, additionalMetadata and every other modelled field
keep their prior values. -/
theorem report_token_mismatch_rejects_unchanged
    (r : Recording) (k : String) (success complete : Bool)
    (fu : Option (List FieldSet)) (nf : Option String)
    (h : r.jobKey ≠ some k) :
    reportHandler r k success complete fu nf =
      (ReportResult.badRequest "jobKey given did not match the database..", r) := by
  simp [reportHandler, h]

/-- Witness for C3: a concrete mismatching report against the claimed
audio recording is rejected and leaves the row unchanged. -/
theorem report_token_mismatch_witness :
    reportHandler recClaimedAudio "wrong" true true none (some "f2") =
      (ReportResult.badRequest "jobKey given did not match the database..",
        recClaimedAudio) :=
  report_token_mismatch_rejects_unchanged recClaimedAudio "wrong" true true none
    (some "f2") (by decide)

/-- C5: a failure report with a matching jobKey unconditionally clears
jobKey and processingStartTime and changes nothing else, whatever the
prior processing state, the complete flag, the field updates or the new
file key. -/
theorem report_failure_clears_claim_only
    (r : Recording) (k : String) (complete : Bool)
    (fu : Option (List FieldSet)) (nf : Option String)
    (h : r.jobKey = some k) :
    reportHandler r k false complete fu nf =
      (ReportResult.ok "Processing failed.",
        { r with processingStartTime := none, jobKey := none }) := by
  simp [reportHandler, h]

/-- Witness for C5: a concrete failure report on the finished claimed
recording clears the claim pair and leaves processingState FINISHED. -/
theorem report_failure_witness :
    reportHandler recFinishedAudio "T" false true none none =
      (ReportResult.ok "Processing failed.",
        { recFinishedAudio with processingStartTime := none, jobKey := none }) :=
  report_failure_clears_claim_only recFinishedAudio "T" true none none (by decide)

/-- The recording row after reprocessing the claimed audio recording:
processingStartTime is cleared and the state is reset to toMp3, but the
jobKey is left holding the stale token. -/
def recAfterReprocess : Recording :=
  { recClaimedAudio with processingStartTime := none }

/-- C7 exhibit: the code of reprocess violates the claim-pair invariant.
The claimed audio recording satisfies the invariant (both fields
non-null); after reprocess the processingStartTime is null while the
jobKey still holds the old token, so the invariant fails.  The update at
src/models/Recording.js 466-469 clears only processingStartTime and
processingState and never touches jobKey. -/
theorem reprocess_breaks_claim_invariant :
    claimPairInvariant recClaimedAudio ∧
    reprocess recClaimedAudio [] = some recAfterReprocess ∧
    ¬ claimPairInvariant recAfterReprocess := by
  refine ⟨?_, rfl, ?_⟩
  · simp [claimPairInvariant, recClaimedAudio]
  · simp [claimPairInvariant, recAfterReprocess, recClaimedAudio]

/-- C6 counterexample: the nextJob computation of the success branch never
fails.  On a processingState absent from the stage list, indexOf gives -1
and jobs[0] is returned: the pipeline restarts at the first stage instead
of failing with InvalidState.  On the terminal stage the computation
yields undefined and the handler still answers with the 200 success
response, so nothing is surfaced to the caller in either case. -/
theorem nextJob_never_fails_counterexample :
    nextJobComputed ["toMp3", "FINISHED"] (some "notAStage") = some "toMp3" ∧
    nextJobComputed ["toMp3", "FINISHED"] (some "FINISHED") = none ∧
    (reportHandler recFinishedAudio "T" true true none none).1 =
      ReportResult.ok "Processing finished." := by
  decide

/-- C10: for a principal without global write capability, a requested
location precision of 1 meter is redacted exactly like a requested
precision of 100 meters: makeFilterOptions clamps both to the 100 meter
floor before filterData applies reduceLatLonPrecision. -/
theorem redaction_floor_enforced (location : Option (ℚ × ℚ)) :
    filterData location (makeFilterOptions false { latLongPrec := some 1 }) =
      filterData location (makeFilterOptions false { latLongPrec := some 100 }) := by
  have h : makeFilterOptions false { latLongPrec := some 1 } =
      makeFilterOptions false { latLongPrec := some 100 } := by
    simp [makeFilterOptions]
  rw [h]

/-- firstIdx? finds nothing exactly on absent needles. -/
theorem firstIdx?_eq_none {l : List String} {x : String} :
    firstIdx? l x = none ↔ x ∉ l := by
  induction l with
  | nil => simp [firstIdx?]
  | cons y ys ih =>
    by_cases hy : y = x
    · simp [firstIdx?, hy]
    · simp [firstIdx?, hy, ih, Ne.symm hy]

/-- firstIdx? returns the index of the first occurrence. -/
theorem firstIdx?_spec {l : List String} {x : String} {i : Nat}
    (h : firstIdx? l x = some i) :
    l[i]? = some x ∧ ∀ j, j < i → l[j]? ≠ some x := by
  induction l generalizing i with
  | nil => simp [firstIdx?] at h
  | cons y ys ih =>
    by_cases hy : y = x
    · simp [firstIdx?, hy] at h
      subst h
      simp [hy]
    · simp [firstIdx?, hy] at h
      obtain ⟨i', hi', rfl⟩ := h
      obtain ⟨h1, h2⟩ := ih hi'
      refine ⟨by simpa using h1, ?_⟩
      intro j hj
      cases j with
      | zero => simpa using hy
      | succ j' =>
        have := h2 j' (by omega)
        simpa using this

/-- JS subscript at a natural successor index. -/
theorem jsElem?_natCast_succ (l : List String) (i : Nat) :
    jsElem? l ((i : Int) + 1) = l[i + 1]? := by
  unfold jsElem?
  rw [if_neg (by omega)]
  congr 1

/-- JS subscript at zero. -/
theorem jsElem?_zero (l : List String) : jsElem? l 0 = l[0]? := by
  simp [jsElem?]

/-- C6 amended: the nextJob computation jobs[jobs.indexOf(cur) + 1]
returns the element immediately after the first occurrence of the current
stage when the stage occurs in the list (and therefore none when that
occurrence is terminal), and returns the first stage of the list when the
current stage does not occur at all; no InvalidState failure exists in
the code. -/
theorem nextJob_characterisation (jobs : List String) (cur : String) :
    (cur ∉ jobs → nextJobComputed jobs (some cur) = jobs[0]?) ∧
    (cur ∈ jobs → ∃ i, jobs[i]? = some cur ∧ (∀ j, j < i → jobs[j]? ≠ some cur) ∧
      nextJobComputed jobs (some cur) = jobs[i + 1]?) := by
  constructor
  · intro hno
    have h : firstIdx? jobs cur = none := firstIdx?_eq_none.mpr hno
    simp [nextJobComputed, jsIndexOfOpt, jsIndexOf, h, jsElem?_zero]
  · intro hin
    cases h : firstIdx? jobs cur with
    | none => exact absurd (firstIdx?_eq_none.mp h) (by simpa using hin)
    | some i =>
      obtain ⟨h1, h2⟩ := firstIdx?_spec h
      refine ⟨i, h1, h2, ?_⟩
      simp [nextJobComputed, jsIndexOfOpt, jsIndexOf, h, jsElem?_natCast_succ]

/-- Witness for the amended C6: for the audio stage list and a stage name
not in it, the computation restarts the pipeline at the first stage. -/
theorem nextJob_characterisation_witness :
    nextJobComputed ["toMp3", "FINISHED"] (some "notAStage") =
      ["toMp3", "FINISHED"][0]? :=
  (nextJob_characterisation ["toMp3", "FINISHED"] "notAStage").1 (by decide)

/-- C4: a successful, complete report with a matching jobKey sets
processingState to exactly the stage immediately after the previous state
in the stage list of the recording type, sets fileKey to the new file
key, and clears both jobKey and processingStartTime. -/
theorem report_success_complete_advances_and_releases
    (r : Recording) (k : String) (nf : Option String)
    (jobs : List String) (cur : String) (i : Nat)
    (hk : r.jobKey = some k)
    (hjobs : processingStates r.type = some jobs)
    (hcur : r.processingState = some cur)
    (hidx : firstIdx? jobs cur = some i)
    (hlt : i + 1 < jobs.length) :
    ∃ nxt, jobs[i + 1]? = some nxt ∧
      reportHandler r k true true none nf =
        (ReportResult.ok "Processing finished.",
          { r with processingState := some nxt, fileKey := nf,
                   jobKey := none, processingStartTime := none }) := by
  refine ⟨jobs[i + 1], List.getElem?_eq_getElem hlt, ?_⟩
  simp [reportHandler, hk, hjobs, hcur, nextJobComputed, jsIndexOfOpt, jsIndexOf,
    hidx, jsElem?_natCast_succ, List.getElem?_eq_getElem hlt]

/-- Witness for C4, the spec scenario: the audio recording claimed in
stage toMp3 with token T, reported successful and complete with new file
key f2, ends in state FINISHED with the claim released and fileKey f2. -/
theorem report_success_complete_witness :
    reportHandler recClaimedAudio "T" true true none (some "f2") =
      (ReportResult.ok "Processing finished.",
        { recClaimedAudio with processingState := some "FINISHED",
                               fileKey := some "f2", jobKey := none,
                               processingStartTime := none }) := by
  obtain ⟨nxt, h1, h2⟩ :=
    report_success_complete_advances_and_releases recClaimedAudio "T" (some "f2")
      ["toMp3", "FINISHED"] "toMp3" 0 (by decide) (by decide) (by decide)
      (by decide) (by decide)
  have hn : nxt = "FINISHED" := by
    simpa using h1.symm
  rw [hn] at h2
  exact h2

/-- The DESC ordering relation is reflexive. -/
theorem dateDescGE_refl (a : Option Nat) : dateDescGE a a = true := by
  cases a <;> simp [dateDescGE]

/-- The DESC ordering relation is total. -/
theorem dateDescGE_total (a b : Option Nat) :
    dateDescGE a b = true ∨ dateDescGE b a = true := by
  cases a <;> cases b <;> simp [dateDescGE]
  omega

/-- The DESC ordering relation is transitive. -/
theorem dateDescGE_trans {a b c : Option Nat}
    (h1 : dateDescGE a b = true) (h2 : dateDescGE b c = true) :
    dateDescGE a c = true := by
  cases a <;> cases b <;> cases c <;> simp_all [dateDescGE]
  omega

/-- pickLatest is none only on the empty store. -/
theorem pickLatest_eq_none {l : List Recording} (h : pickLatest l = none) :
    l = [] := by
  cases l with
  | nil => rfl
  | cons r rs =>
    exfalso
    cases hp : pickLatest rs <;> simp [pickLatest, hp] at h
    revert h
    split <;> simp

/-- pickLatest returns an element of the list. -/
theorem pickLatest_mem {l : List Recording} {r : Recording}
    (h : pickLatest l = some r) : r ∈ l := by
  induction l generalizing r with
  | nil => simp [pickLatest] at h
  | cons x xs ih =>
    cases hp : pickLatest xs with
    | none =>
      simp [pickLatest, hp] at h
      simp [h]
    | some b =>
      simp only [pickLatest, hp] at h
      split at h
      · simp_all
      · have := ih (by simpa using h.symm ▸ hp)
        simp_all

/-- pickLatest returns a row maximal for the DESC order. -/
theorem pickLatest_max {l : List Recording} {r : Recording}
    (h : pickLatest l = some r) :
    ∀ s ∈ l, dateDescGE r.recordingDateTime s.recordingDateTime = true := by
  induction l generalizing r with
  | nil => simp [pickLatest] at h
  | cons x xs ih =>
    intro s hs
    cases hp : pickLatest xs with
    | none =>
      have hxs : xs = [] := pickLatest_eq_none hp
      subst hxs
      simp [pickLatest] at h
      simp at hs
      subst h
      subst hs
      exact dateDescGE_refl _
    | some b =>
      simp only [pickLatest, hp] at h
      split at h
      · next hge =>
        have hrx : r = x := by simpa using h.symm
        subst hrx
        rcases (by simpa using hs : s = r ∨ s ∈ xs) with hsx | hsxs
        · subst hsx
          exact dateDescGE_refl _
        · exact dateDescGE_trans hge (ih hp s hsxs)
      · next hge =>
        have hrb : r = b := by simpa using h.symm
        subst hrb
        rcases (by simpa using hs : s = x ∨ s ∈ xs) with hsx | hsxs
        · subst hsx
          rcases dateDescGE_total s.recordingDateTime r.recordingDateTime with ht | ht
          · exact absurd (by simpa using ht) hge
          · exact ht
        · exact ih hp s hsxs

/-- C2: getOneForProcessing returns none when no recording of the given
type and stage is unclaimed; and whenever it returns a row, that row is a
stored recording matching the requested type and stage with a null
processingStartTime, maximal for the recordingDateTime DESC order among
all such candidates, returned with jobKey stamped to the fresh token and
processingStartTime stamped to now. -/
theorem getOneForProcessing_spec (store : List Recording) (ty st : String)
    (newKey : String) (now : Nat) :
    ((∀ r ∈ store, claimMatches ty st r = false) →
        getOneForProcessing store ty st newKey now = none) ∧
    (∀ r', getOneForProcessing store ty st newKey now = some r' →
      ∃ r, r ∈ store ∧ claimMatches ty st r = true ∧
        (∀ s ∈ store, claimMatches ty st s = true →
          dateDescGE r.recordingDateTime s.recordingDateTime = true) ∧
        r' = { r with jobKey := some newKey, processingStartTime := some now }) := by
  constructor
  · intro hnone
    have hf : store.filter (claimMatches ty st) = [] := by
      simp only [List.filter_eq_nil_iff]
      intro a ha
      simp [hnone a ha]
    simp [getOneForProcessing, hf, pickLatest]
  · intro r' h
    unfold getOneForProcessing at h
    cases hp : pickLatest (store.filter (claimMatches ty st)) with
    | none => rw [hp] at h; simp at h
    | some r =>
      rw [hp] at h
      simp at h
      have hmem := pickLatest_mem hp
      have hmax := pickLatest_max hp
      rw [List.mem_filter] at hmem
      refine ⟨r, hmem.1, hmem.2, ?_, h.symm⟩
      intro s hs hms
      exact hmax s (List.mem_filter.mpr ⟨hs, hms⟩)

/-- Witness for C2: with the only stored recording in the terminal stage,
a claim for stage toMp3 finds no candidate and returns none. -/
theorem getOneForProcessing_witness :
    getOneForProcessing [recFinishedAudio] "audio" "toMp3" "K" 7 = none :=
  (getOneForProcessing_spec [recFinishedAudio] "audio" "toMp3" "K" 7).1 (by decide)

/-- C8: the compiled predicate for mode untagged with no tag names is the
pointwise boolean negation of the compiled predicate for mode tagged with
no tag names: for every list of recording tags and every list of tracks,
exactly one of the two predicates holds. -/
theorem untagged_negates_tagged :
    ∃ p q, handleTagMode (some "untagged") [] = Except.ok p ∧
      handleTagMode (some "tagged") [] = Except.ok q ∧
      ∀ recTags tracks, p recTags tracks = !(q recTags tracks) := by
  refine ⟨notTagOfType none none, tagOfType none none, rfl, rfl, ?_⟩
  intro rt tks
  simp [notTagOfType, tagOfType, Bool.not_or]

/-- Disjunction under WHERE-truth: an OR evaluates to TRUE exactly when a
disjunct does, also in Kleene logic. -/
theorem evalT_orE (a b : SqlExpr) (r : Row) :
    evalT (SqlExpr.orE a b) r = (evalT a r || evalT b r) := by
  cases ha : eval a r <;> cases hb : eval b r <;> simp [evalT, eval, tvOr, ha, hb]

/-- WHERE-truth of a left fold of ORs. -/
theorem evalT_foldl_orE (es : List SqlExpr) (e : SqlExpr) (r : Row) :
    evalT (es.foldl SqlExpr.orE e) r = (evalT e r || es.any (fun x => evalT x r)) := by
  induction es generalizing e with
  | nil => simp
  | cons x xs ih => simp [List.foldl_cons, ih, evalT_orE, Bool.or_assoc]

/-- any over a flatMap splits into a nested any. -/
theorem any_flatMap {α β : Type} (l : List α) (f : α → List β) (p : β → Bool) :
    (l.flatMap f).any p = l.any (fun a => (f a).any p) := by
  induction l with
  | nil => rfl
  | cons x xs ih => simp [List.flatMap_cons, List.any_append, ih]

/-- selectByTagWhat pushes at least one part per name. -/
theorem nameParts_ne_nil (u : Bool) (n : String) : nameParts u n ≠ [] := by
  unfold nameParts
  split <;> split <;> simp

/-- The per-name predicate exactly as claim C9 words it: interesting
matches any tag whose what is not bird (with, at recording level only,
detail not false positive); any other name matches what = name, plus
detail = name at recording level only. -/
def claimPerName (usesDetail : Bool) (n : String) (r : Row) : Bool :=
  if n = "interesting" then
    !(r.what == some "bird") && (!usesDetail || !(r.detail == some "false positive"))
  else
    (r.what == some n) || (usesDetail && (r.detail == some n))

/-- The name-filter predicate as claim C9 words it: OR over the requested
names of the per-name predicates. -/
def claimNameFilter (usesDetail : Bool) (ns : List String) (r : Row) : Bool :=
  ns.any (fun n => claimPerName usesDetail n r)

/-- WHERE-truth of the compiled name filter of selectByTagWhat on one tag
row (false for the empty name list, where no condition is compiled). -/
def sqlNameFilter (usesDetail : Bool) (ns : List String) (r : Row) : Bool :=
  match selectByTagWhat ns usesDetail with
  | none => false
  | some e => evalT e r

/-- C9 counterexample: for the requested name interesting at track level,
the claim predicate accepts a track tag whose what is false positive
(its what is not bird), but the compiled SQL also requires what != false
positive, so the compiled predicate rejects it. -/
theorem interesting_trackTag_counterexample :
    claimNameFilter false ["interesting"]
      { what := some "false positive", detail := none, automatic := true } = true ∧
    sqlNameFilter false ["interesting"]
      { what := some "false positive", detail := none, automatic := true } = false := by
  decide

/-- The corrected per-name semantics actually compiled by selectByTagWhat:
at recording level, interesting matches when what is null or not bird and
detail is null or not false positive; at track level it matches only a
non-null what that is neither bird nor false positive (SQL comparisons
with a NULL column are never true); other names match what = name, plus
detail = name at recording level only. -/
def amendedPerName (usesDetail : Bool) (n : String) (r : Row) : Bool :=
  if n = "interesting" then
    if usesDetail then
      (match r.what with
        | none => true
        | some w => w != "bird") &&
      (match r.detail with
        | none => true
        | some d => d != "false positive")
    else
      (match r.what with
        | none => false
        | some w => w != "bird" && w != "false positive")
  else
    (r.what == some n) || (usesDetail && (r.detail == some n))

/-- The parts pushed for one name evaluate to the corrected per-name
semantics. -/
theorem nameParts_any (u : Bool) (n : String) (r : Row) :
    (nameParts u n).any (fun e => evalT e r) = amendedPerName u n r := by
  by_cases hn : n = "interesting"
  · subst hn
    cases u
    · cases hw : r.what with
      | none => simp [nameParts, amendedPerName, evalT, eval, colVal, tvAnd, hw]
      | some w =>
        by_cases hb : w = "bird" <;> by_cases hf : w = "false positive" <;>
          simp [nameParts, amendedPerName, evalT, eval, colVal, tvAnd, hw, hb, hf]
    · cases hw : r.what with
      | none =>
        cases hd : r.detail with
        | none => simp [nameParts, amendedPerName, evalT, eval, colVal, tvAnd, tvOr, hw, hd]
        | some d =>
          by_cases hdf : d = "false positive" <;>
            simp [nameParts, amendedPerName, evalT, eval, colVal, tvAnd, tvOr, hw, hd, hdf]
      | some w =>
        cases hd : r.detail with
        | none =>
          by_cases hb : w = "bird" <;>
            simp [nameParts, amendedPerName, evalT, eval, colVal, tvAnd, tvOr, hw, hd, hb]
        | some d =>
          by_cases hb : w = "bird" <;> by_cases hdf : d = "false positive" <;>
            simp [nameParts, amendedPerName, evalT, eval, colVal, tvAnd, tvOr, hw, hd, hb, hdf]
  · cases u with
    | false =>
      cases hw : r.what with
      | none => simp [nameParts, amendedPerName, evalT, eval, colVal, hn, hw]
      | some w =>
        by_cases hwn : w = n <;>
          simp [nameParts, amendedPerName, evalT, eval, colVal, hn, hw, hwn]
    | true =>
      cases hw : r.what with
      | none =>
        cases hd : r.detail with
        | none => simp [nameParts, amendedPerName, evalT, eval, colVal, hn, hw, hd]
        | some d =>
          by_cases hdn : d = n <;>
            simp [nameParts, amendedPerName, evalT, eval, colVal, beq_iff_eq,
              beq_eq_false_iff_ne, hn, hw, hd, hdn]
      | some w =>
        cases hd : r.detail with
        | none =>
          by_cases hwn : w = n <;>
            simp [nameParts, amendedPerName, evalT, eval, colVal, beq_iff_eq,
              beq_eq_false_iff_ne, hn, hw, hd, hwn]
        | some d =>
          by_cases hwn : w = n <;> by_cases hdn : d = n <;>
            simp [nameParts, amendedPerName, evalT, eval, colVal, beq_iff_eq,
              beq_eq_false_iff_ne, hn, hw, hd, hwn, hdn]

/-- C9 amended: for every nonempty requested name list, the compiled
name-filter predicate is the OR over the requested names of the corrected
per-name predicates. -/
theorem sqlNameFilter_characterisation (usesDetail : Bool) (ns : List String) (r : Row)
    (h : ns ≠ []) :
    sqlNameFilter usesDetail ns r = ns.any (fun n => amendedPerName usesDetail n r) := by
  have hne : ns.isEmpty = false := by
    cases ns
    · exact absurd rfl h
    · rfl
  cases hparts : ns.flatMap (nameParts usesDetail) with
  | nil =>
    exfalso
    cases ns with
    | nil => exact h rfl
    | cons n ns' =>
      rw [List.flatMap_cons] at hparts
      exact nameParts_ne_nil usesDetail n (List.append_eq_nil.mp hparts).1
  | cons e es =>
    have hsel : selectByTagWhat ns usesDetail = some (es.foldl SqlExpr.orE e) := by
      unfold selectByTagWhat
      rw [hparts]
      simp [hne, orJoin]
    have hany : (ns.flatMap (nameParts usesDetail)).any (fun x => evalT x r) =
        ns.any (fun n => amendedPerName usesDetail n r) := by
      rw [any_flatMap]
      simp only [nameParts_any]
    unfold sqlNameFilter
    rw [hsel]
    show evalT (es.foldl SqlExpr.orE e) r = ns.any fun n => amendedPerName usesDetail n r
    rw [evalT_foldl_orE]
    show ((e :: es).any fun x => evalT x r) = ns.any fun n => amendedPerName usesDetail n r
    rw [← hparts]
    exact hany

/-- Witness for the amended C9: a concrete single-name filter at recording
level evaluated on a matching tag row. -/
theorem sqlNameFilter_characterisation_witness :
    sqlNameFilter true ["possum"]
      { what := some "possum", detail := none, automatic := false } =
      ["possum"].any (fun n => amendedPerName true n
        { what := some "possum", detail := none, automatic := false }) :=
  sqlNameFilter_characterisation true ["possum"] _ (by decide)

end Cacophony
